import Mathlib

/-!
Apollonian: the `Control` uniform block of `Source/ShaderTypes.h`.

The header declares one plain aggregate, `struct Control`, shared verbatim
between the host program and the shader.  This development embeds the
declaration (member list, member types), the sequential layout that a C
family compiler gives it, and the little-endian memory image of a value, and
proves the layout and value properties of the structure.
-/

namespace Apollonian

/-! ## The declaration -/

/-- The three member types that occur in `struct Control`. -/
inductive Ty where
  | vector_float3
  | int
  | float
  deriving DecidableEq, Repr

/-- A member declaration: the declared name and the declared type. -/
structure Member where
  name : String
  ty : Ty
  deriving DecidableEq, Repr

/-- The members of `struct Control`, in declaration order
(`Source/ShaderTypes.h`, lines 4 to 24). -/
def Control.members : List Member :=
  [ ⟨"camera", Ty.vector_float3⟩,
    ⟨"focus", Ty.vector_float3⟩,
    ⟨"size", Ty.int⟩,
    ⟨"minimumStepDistance", Ty.float⟩,
    ⟨"zoom", Ty.float⟩,
    ⟨"time", Ty.float⟩,
    ⟨"p1", Ty.float⟩,
    ⟨"p2", Ty.float⟩,
    ⟨"p3", Ty.float⟩,
    ⟨"p4", Ty.float⟩,
    ⟨"p5", Ty.float⟩,
    ⟨"p6", Ty.float⟩,
    ⟨"p7", Ty.float⟩,
    ⟨"p8", Ty.float⟩,
    ⟨"p9", Ty.float⟩,
    ⟨"pA", Ty.float⟩,
    ⟨"pB", Ty.float⟩,
    ⟨"pC", Ty.float⟩ ]

/-! ## Layout rules of the target -/

/-- The layout rules of a target: for each member type the number of bytes an
object of the type occupies, its alignment, and the number of leading bytes
that carry its components.  The header takes `vector_float3` from
`<simd/simd.h>`, which is not part of the repository, so the rules are a
parameter of every layout function. -/
structure Target where
  sizeOf : Ty → Nat
  alignOf : Ty → Nat
  usedOf : Ty → Nat

/-- Modelled from the spec: the declaration of `vector_float3` in
`<simd/simd.h>` is missing.  The spec gives the conventional rules: a
3-component float vector is padded to 16 bytes, is 16-byte aligned and uses its
first 12 bytes; `int` and `float` are 32-bit scalars of 4 bytes. -/
def simdTarget : Target where
  sizeOf := fun t => match t with
    | Ty.vector_float3 => 16
    | Ty.int => 4
    | Ty.float => 4
  alignOf := fun t => match t with
    | Ty.vector_float3 => 16
    | Ty.int => 4
    | Ty.float => 4
  usedOf := fun t => match t with
    | Ty.vector_float3 => 12
    | Ty.int => 4
    | Ty.float => 4

/-- The layout rules the spec states: 3-vectors are 16 bytes wide, 16-byte
aligned with 12 bytes in use, every scalar is 4 bytes wide and 4-byte
aligned. -/
def Target.PadsVec3 (T : Target) : Prop :=
  (T.sizeOf Ty.vector_float3 = 16 ∧ T.alignOf Ty.vector_float3 = 16 ∧
    T.usedOf Ty.vector_float3 = 12) ∧
  (T.sizeOf Ty.int = 4 ∧ T.alignOf Ty.int = 4 ∧ T.usedOf Ty.int = 4) ∧
  (T.sizeOf Ty.float = 4 ∧ T.alignOf Ty.float = 4 ∧ T.usedOf Ty.float = 4)

instance (T : Target) : Decidable T.PadsVec3 := by
  unfold Target.PadsVec3
  infer_instance

/-! ## Sequential layout -/

/-- Round `off` up to a multiple of the alignment `a`. -/
def alignUp (off a : Nat) : Nat :=
  (off + a - 1) / a * a

/-- A laid-out member: its declaration, its byte offset and its width. -/
structure Slot where
  name : String
  ty : Ty
  offset : Nat
  size : Nat
  deriving DecidableEq, Repr

/-- One past the last byte of a slot. -/
def Slot.stop (s : Slot) : Nat :=
  s.offset + s.size

/-- Sequential layout of a member list starting at byte `off`: every member
is placed at the next offset that satisfies its alignment, and the following
member starts looking after its last byte. -/
def layoutFrom (T : Target) (off : Nat) : List Member → List Slot
  | [] => []
  | m :: rest =>
    let o := alignUp off (T.alignOf m.ty)
    ⟨m.name, m.ty, o, T.sizeOf m.ty⟩ :: layoutFrom T (o + T.sizeOf m.ty) rest

/-- The slots of a structure with the given members. -/
def layout (T : Target) (ms : List Member) : List Slot :=
  layoutFrom T 0 ms

/-- The end of the last member when laying out from `off` (the unrounded
size). -/
def endFrom (T : Target) (off : Nat) : List Member → Nat
  | [] => off
  | m :: rest => endFrom T (alignUp off (T.alignOf m.ty) + T.sizeOf m.ty) rest

/-- The alignment of a structure: the largest alignment among its members. -/
def structAlign (T : Target) (ms : List Member) : Nat :=
  (ms.map (fun m => T.alignOf m.ty)).foldl max 1

/-- The size of a structure: the end of its last member rounded up to the
alignment of the structure. -/
def sizeofStruct (T : Target) (ms : List Member) : Nat :=
  alignUp (endFrom T 0 ms) (structAlign T ms)

/-- The plain sum of the member widths, with no alignment applied. -/
def widthSum (T : Target) (ms : List Member) : Nat :=
  (ms.map (fun m => T.sizeOf m.ty)).sum

/-- The byte offsets of the members, in declaration order. -/
def offsets (T : Target) (ms : List Member) : List Nat :=
  (layout T ms).map Slot.offset

/-- The offset of the member called `n` (`offsetof(Control, n)`). -/
def offsetOf (T : Target) (ms : List Member) (n : String) : Option Nat :=
  ((layout T ms).find? (fun s => s.name == n)).map Slot.offset

/-! ## Values and their memory image -/

/-- A value of `vector_float3`: the IEEE-754 bit patterns of its three
components. -/
structure vector_float3 where
  x : Nat
  y : Nat
  z : Nat
  deriving DecidableEq, Repr

/-- A value of `struct Control`.  Every `float` member is held as its 32-bit
IEEE-754 bit pattern and `size` as the integer it denotes. -/
structure Control where
  camera : vector_float3
  focus : vector_float3
  size : Int
  minimumStepDistance : Nat
  zoom : Nat
  time : Nat
  p1 : Nat
  p2 : Nat
  p3 : Nat
  p4 : Nat
  p5 : Nat
  p6 : Nat
  p7 : Nat
  p8 : Nat
  p9 : Nat
  pA : Nat
  pB : Nat
  pC : Nat
  deriving DecidableEq, Repr

/-- The three lanes of a vector are 32-bit patterns. -/
def vector_float3.Valid (v : vector_float3) : Prop :=
  v.x < 4294967296 ∧ v.y < 4294967296 ∧ v.z < 4294967296

/-- Every `float` member is a 32-bit pattern and `size` is in the range of a
32-bit signed integer. -/
def Control.Valid (c : Control) : Prop :=
  c.camera.Valid ∧ c.focus.Valid ∧
  (-2147483648 ≤ c.size ∧ c.size < 2147483648) ∧
  c.minimumStepDistance < 4294967296 ∧ c.zoom < 4294967296 ∧ c.time < 4294967296 ∧
  c.p1 < 4294967296 ∧ c.p2 < 4294967296 ∧ c.p3 < 4294967296 ∧ c.p4 < 4294967296 ∧
  c.p5 < 4294967296 ∧ c.p6 < 4294967296 ∧ c.p7 < 4294967296 ∧ c.p8 < 4294967296 ∧
  c.p9 < 4294967296 ∧ c.pA < 4294967296 ∧ c.pB < 4294967296 ∧ c.pC < 4294967296

instance (v : vector_float3) : Decidable v.Valid := by
  unfold vector_float3.Valid
  infer_instance

instance (c : Control) : Decidable c.Valid := by
  unfold Control.Valid
  infer_instance

/-- Two values agree on every member except possibly `time`. -/
def Control.AgreeExceptTime (a b : Control) : Prop :=
  a.camera = b.camera ∧ a.focus = b.focus ∧ a.size = b.size ∧
  a.minimumStepDistance = b.minimumStepDistance ∧ a.zoom = b.zoom ∧
  a.p1 = b.p1 ∧ a.p2 = b.p2 ∧ a.p3 = b.p3 ∧ a.p4 = b.p4 ∧ a.p5 = b.p5 ∧ a.p6 = b.p6 ∧
  a.p7 = b.p7 ∧ a.p8 = b.p8 ∧ a.p9 = b.p9 ∧ a.pA = b.pA ∧ a.pB = b.pB ∧ a.pC = b.pC

instance (a b : Control) : Decidable (a.AgreeExceptTime b) := by
  unfold Control.AgreeExceptTime
  infer_instance

/-- The two's complement bit pattern of a 32-bit signed integer. -/
def intBits (v : Int) : Nat :=
  (v % 4294967296).toNat

/-- The signed integer a 32-bit two's complement pattern denotes. -/
def intOfBits (w : Nat) : Int :=
  if w < 2147483648 then (w : Int) else (w : Int) - 4294967296

/-- Byte `k` of a word, least significant byte first: the spec fixes the
native little-endian representation. -/
def byteOf (w k : Nat) : Nat :=
  w / 256 ^ k % 256

/-- The component words of the members of a value, in declaration order. -/
def Control.words (c : Control) : List (List Nat) :=
  [ [c.camera.x, c.camera.y, c.camera.z],
    [c.focus.x, c.focus.y, c.focus.z],
    [intBits c.size],
    [c.minimumStepDistance], [c.zoom], [c.time],
    [c.p1], [c.p2], [c.p3], [c.p4], [c.p5], [c.p6],
    [c.p7], [c.p8], [c.p9], [c.pA], [c.pB], [c.pC] ]

/-- The byte at position `k` inside a member with component words `ws` of which
the first `used` bytes are in use; `none` where no component is stored. -/
def memberByte (ws : List Nat) (used k : Nat) : Option Nat :=
  if k < used then (ws.get? (k / 4)).map (fun w => byteOf w (k % 4)) else none

/-- Byte `i` of the memory image of a value.  Bytes that carry no component
(padding, unused vector lanes) are not determined by the member values: they
show `fill i`, the content the storage of the object has there (zero after
value-initialisation, anything otherwise). -/
def imageByte (T : Target) (c : Control) (fill : Nat → Nat) (i : Nat) : Nat :=
  match ((layout T Control.members).zip c.words).find?
      (fun p => decide (p.1.offset ≤ i) && decide (i < p.1.stop)) with
  | some p => (memberByte p.2 (T.usedOf p.1.ty) (i - p.1.offset)).getD (fill i)
  | none => fill i

/-- The memory image of a value: its `sizeof(Control)` bytes. -/
def image (T : Target) (c : Control) (fill : Nat → Nat) : List Nat :=
  (List.range (sizeofStruct T Control.members)).map (imageByte T c fill)

/-- Whether byte `i` of a structure carries a component of some member. -/
def carries (T : Target) (ms : List Member) (i : Nat) : Bool :=
  (layout T ms).any (fun s => decide (s.offset ≤ i) && decide (i < s.offset + T.usedOf s.ty))

/-- Read the little-endian 32-bit word at byte offset `o` of an image. -/
def readWord (img : List Nat) (o : Nat) : Nat :=
  img.getD o 0 + 256 * img.getD (o + 1) 0 + 65536 * img.getD (o + 2) 0 +
    16777216 * img.getD (o + 3) 0

/-- Read the three lanes of a vector at byte offset `o` of an image. -/
def readVec (img : List Nat) (o : Nat) : vector_float3 :=
  ⟨readWord img o, readWord img (o + 4), readWord img (o + 8)⟩

/-- The offset of a member of `Control` by name. -/
def fieldAt (T : Target) (n : String) : Nat :=
  (offsetOf T Control.members n).getD 0

/-- Decode every member of a value from its offset range in an image. -/
def decode (T : Target) (img : List Nat) : Control where
  camera := readVec img (fieldAt T "camera")
  focus := readVec img (fieldAt T "focus")
  size := intOfBits (readWord img (fieldAt T "size"))
  minimumStepDistance := readWord img (fieldAt T "minimumStepDistance")
  zoom := readWord img (fieldAt T "zoom")
  time := readWord img (fieldAt T "time")
  p1 := readWord img (fieldAt T "p1")
  p2 := readWord img (fieldAt T "p2")
  p3 := readWord img (fieldAt T "p3")
  p4 := readWord img (fieldAt T "p4")
  p5 := readWord img (fieldAt T "p5")
  p6 := readWord img (fieldAt T "p6")
  p7 := readWord img (fieldAt T "p7")
  p8 := readWord img (fieldAt T "p8")
  p9 := readWord img (fieldAt T "p9")
  pA := readWord img (fieldAt T "pA")
  pB := readWord img (fieldAt T "pB")
  pC := readWord img (fieldAt T "pC")

/-- Construct a value from the supplied member values (aggregate
initialisation in declaration order). -/
def Control.make (camera focus : vector_float3) (size : Int)
    (minimumStepDistance zoom time p1 p2 p3 p4 p5 p6 p7 p8 p9 pA pB pC : Nat) : Control :=
  ⟨camera, focus, size, minimumStepDistance, zoom, time,
    p1, p2, p3, p4, p5, p6, p7, p8, p9, pA, pB, pC⟩

/-- The sequential-layout rule in the words of the spec: `o` is the smallest
multiple of the alignment `a` that is not below `prevEnd`, the end of the
preceding member. -/
def IsSeqOffset (a prevEnd o : Nat) : Prop :=
  a ∣ o ∧ prevEnd ≤ o ∧ ∀ m, a ∣ m → prevEnd ≤ m → o ≤ m

/-! ## Basic facts -/

/-- Layout rules that pad 3-vectors to 16 bytes are the rules of
`simdTarget`. -/
theorem Target.eq_simdTarget {T : Target} (h : T.PadsVec3) : T = simdTarget := by
  obtain ⟨⟨h1, h2, h3⟩, ⟨h4, h5, h6⟩, h7, h8, h9⟩ := h
  cases T with
  | mk s a u =>
    simp only [simdTarget, Target.mk.injEq]
    refine ⟨?_, ?_, ?_⟩ <;> funext t <;> cases t <;> assumption

/-- The rules of `simdTarget` are the ones the spec states. -/
theorem simdTarget_padsVec3 : simdTarget.PadsVec3 := by
  simp [Target.PadsVec3, simdTarget]

/-- For a positive alignment `alignUp` returns a multiple of the alignment. -/
theorem alignUp_dvd (off a : Nat) : a ∣ alignUp off a :=
  Dvd.intro_left _ rfl

/-- For a positive alignment `alignUp` does not go below its argument. -/
theorem le_alignUp (off a : Nat) (ha : 0 < a) : off ≤ alignUp off a := by
  unfold alignUp
  have h1 := Nat.div_add_mod (off + a - 1) a
  have h2 := Nat.mod_lt (off + a - 1) ha
  have h3 : (off + a - 1) / a * a = a * ((off + a - 1) / a) := Nat.mul_comm _ _
  omega

/-- The result of `alignUp` is the least multiple of the alignment that is not
below the argument. -/
theorem alignUp_le_of_dvd (off a m : Nat) (ha : 0 < a) (hd : a ∣ m) (hm : off ≤ m) :
    alignUp off a ≤ m := by
  obtain ⟨k, rfl⟩ := hd
  unfold alignUp
  have h : (off + a - 1) / a ≤ k := by
    apply Nat.le_of_lt_succ
    rw [Nat.div_lt_iff_lt_mul ha]
    have hk : Nat.succ k * a = a * k + a := by
      rw [Nat.succ_mul, Nat.mul_comm]
    rw [hk]
    omega
  calc (off + a - 1) / a * a ≤ k * a := Nat.mul_le_mul_right a h
    _ = a * k := Nat.mul_comm _ _

/-- For any member list and any positive alignment, the first slot of
`layoutFrom` sits at the offset the spec describes, and the remaining members
are laid out from its end. -/
theorem layoutFrom_cons_isSeqOffset (T : Target) (off : Nat) (m : Member)
    (rest : List Member) (ha : 0 < T.alignOf m.ty) :
    ∃ s tl, layoutFrom T off (m :: rest) = s :: tl ∧
      IsSeqOffset (T.alignOf m.ty) off s.offset ∧ s.size = T.sizeOf m.ty ∧
      tl = layoutFrom T s.stop rest :=
  ⟨⟨m.name, m.ty, alignUp off (T.alignOf m.ty), T.sizeOf m.ty⟩, _, rfl,
    ⟨alignUp_dvd _ _, le_alignUp _ _ ha, fun k hd hk => alignUp_le_of_dvd _ _ k ha hd hk⟩,
    rfl, rfl⟩

/-- The layout of `Control` under the stated rules, slot by slot. -/
theorem layout_Control :
    layout simdTarget Control.members =
      [ ⟨"camera", Ty.vector_float3, 0, 16⟩, ⟨"focus", Ty.vector_float3, 16, 16⟩,
        ⟨"size", Ty.int, 32, 4⟩, ⟨"minimumStepDistance", Ty.float, 36, 4⟩,
        ⟨"zoom", Ty.float, 40, 4⟩, ⟨"time", Ty.float, 44, 4⟩,
        ⟨"p1", Ty.float, 48, 4⟩, ⟨"p2", Ty.float, 52, 4⟩, ⟨"p3", Ty.float, 56, 4⟩,
        ⟨"p4", Ty.float, 60, 4⟩, ⟨"p5", Ty.float, 64, 4⟩, ⟨"p6", Ty.float, 68, 4⟩,
        ⟨"p7", Ty.float, 72, 4⟩, ⟨"p8", Ty.float, 76, 4⟩, ⟨"p9", Ty.float, 80, 4⟩,
        ⟨"pA", Ty.float, 84, 4⟩, ⟨"pB", Ty.float, 88, 4⟩, ⟨"pC", Ty.float, 92, 4⟩ ] := by
  rfl

/-- The size of `Control` under the stated rules. -/
theorem sizeofStruct_Control : sizeofStruct simdTarget Control.members = 96 := by
  rfl

/-- The first 96 byte indices. -/
theorem range_96 : List.range 96 = [0, 1, 2, 3, 4, 5, 6, 7, 8, 9, 10, 11, 12, 13, 14, 15, 16, 17, 18, 19, 20, 21, 22, 23, 24, 25, 26, 27, 28, 29, 30, 31, 32, 33, 34, 35, 36, 37, 38, 39, 40, 41, 42, 43, 44, 45, 46, 47, 48, 49, 50, 51, 52, 53, 54, 55, 56, 57, 58, 59, 60, 61, 62, 63, 64, 65, 66, 67, 68, 69, 70, 71, 72, 73, 74, 75, 76, 77, 78, 79, 80, 81, 82, 83, 84, 85, 86, 87, 88, 89, 90, 91, 92, 93, 94, 95] := by
  decide

/-- The image of a value under the stated rules, byte by byte. -/
theorem image_simdTarget (c : Control) (fill : Nat → Nat) :
    image simdTarget c fill =
      [
        byteOf c.camera.x 0, byteOf c.camera.x 1, byteOf c.camera.x 2, byteOf c.camera.x 3,
        byteOf c.camera.y 0, byteOf c.camera.y 1, byteOf c.camera.y 2, byteOf c.camera.y 3,
        byteOf c.camera.z 0, byteOf c.camera.z 1, byteOf c.camera.z 2, byteOf c.camera.z 3,
        fill 12, fill 13, fill 14, fill 15,
        byteOf c.focus.x 0, byteOf c.focus.x 1, byteOf c.focus.x 2, byteOf c.focus.x 3,
        byteOf c.focus.y 0, byteOf c.focus.y 1, byteOf c.focus.y 2, byteOf c.focus.y 3,
        byteOf c.focus.z 0, byteOf c.focus.z 1, byteOf c.focus.z 2, byteOf c.focus.z 3,
        fill 28, fill 29, fill 30, fill 31,
        byteOf (intBits c.size) 0, byteOf (intBits c.size) 1, byteOf (intBits c.size) 2, byteOf (intBits c.size) 3,
        byteOf c.minimumStepDistance 0, byteOf c.minimumStepDistance 1, byteOf c.minimumStepDistance 2, byteOf c.minimumStepDistance 3,
        byteOf c.zoom 0, byteOf c.zoom 1, byteOf c.zoom 2, byteOf c.zoom 3,
        byteOf c.time 0, byteOf c.time 1, byteOf c.time 2, byteOf c.time 3,
        byteOf c.p1 0, byteOf c.p1 1, byteOf c.p1 2, byteOf c.p1 3,
        byteOf c.p2 0, byteOf c.p2 1, byteOf c.p2 2, byteOf c.p2 3,
        byteOf c.p3 0, byteOf c.p3 1, byteOf c.p3 2, byteOf c.p3 3,
        byteOf c.p4 0, byteOf c.p4 1, byteOf c.p4 2, byteOf c.p4 3,
        byteOf c.p5 0, byteOf c.p5 1, byteOf c.p5 2, byteOf c.p5 3,
        byteOf c.p6 0, byteOf c.p6 1, byteOf c.p6 2, byteOf c.p6 3,
        byteOf c.p7 0, byteOf c.p7 1, byteOf c.p7 2, byteOf c.p7 3,
        byteOf c.p8 0, byteOf c.p8 1, byteOf c.p8 2, byteOf c.p8 3,
        byteOf c.p9 0, byteOf c.p9 1, byteOf c.p9 2, byteOf c.p9 3,
        byteOf c.pA 0, byteOf c.pA 1, byteOf c.pA 2, byteOf c.pA 3,
        byteOf c.pB 0, byteOf c.pB 1, byteOf c.pB 2, byteOf c.pB 3,
        byteOf c.pC 0, byteOf c.pC 1, byteOf c.pC 2, byteOf c.pC 3 ] := by
  simp only [image, sizeofStruct_Control, range_96, List.map]
  simp [imageByte, layout_Control, Control.words, Slot.stop, memberByte]
  simp [simdTarget]

/-- The four bytes of a 32-bit word, read back least significant first, give
the word. -/
theorem bytes_recompose (w : Nat) (hw : w < 4294967296) :
    byteOf w 0 + 256 * byteOf w 1 + 65536 * byteOf w 2 + 16777216 * byteOf w 3 = w := by
  simp only [byteOf]
  norm_num
  omega

/-- A word is determined by its four bytes. -/
theorem bytes_inj (v w : Nat) (hv : v < 4294967296) (hw : w < 4294967296)
    (h0 : byteOf v 0 = byteOf w 0) (h1 : byteOf v 1 = byteOf w 1)
    (h2 : byteOf v 2 = byteOf w 2) (h3 : byteOf v 3 = byteOf w 3) : v = w := by
  rw [← bytes_recompose v hv, ← bytes_recompose w hw, h0, h1, h2, h3]

/-- The pattern of an integer is a 32-bit word. -/
theorem intBits_lt (v : Int) : intBits v < 4294967296 := by
  unfold intBits
  omega

/-- Two's complement encoding is inverted by decoding on the range of a 32-bit
signed integer. -/
theorem intOfBits_intBits (v : Int) (h1 : -2147483648 ≤ v) (h2 : v < 2147483648) :
    intOfBits (intBits v) = v := by
  unfold intOfBits intBits
  split <;> omega

/-- Decoding under the stated rules reads the members at their offsets. -/
theorem decode_simdTarget (img : List Nat) :
    decode simdTarget img =
      { camera := readVec img 0, focus := readVec img 16,
        size := intOfBits (readWord img 32),
        minimumStepDistance := readWord img 36, zoom := readWord img 40,
        time := readWord img 44,
        p1 := readWord img 48, p2 := readWord img 52, p3 := readWord img 56,
        p4 := readWord img 60, p5 := readWord img 64, p6 := readWord img 68,
        p7 := readWord img 72, p8 := readWord img 76, p9 := readWord img 80,
        pA := readWord img 84, pB := readWord img 88, pC := readWord img 92 } := by
  rfl

/-- Decoding the image of a valid value gives the value back. -/
theorem decode_image_simdTarget (c : Control) (fill : Nat → Nat) (h : c.Valid) :
    decode simdTarget (image simdTarget c fill) = c := by
  obtain ⟨⟨hx, hy, hz⟩, ⟨gx, gy, gz⟩, ⟨hs1, hs2⟩, h4, h5, h6, h7, h8, h9, h10, h11, h12,
    h13, h14, h15, h16, h17, h18⟩ := h
  rw [decode_simdTarget, image_simdTarget]
  simp only [readVec, readWord, List.getD_cons_succ, List.getD_cons_zero, Nat.reduceAdd,
    bytes_recompose _ hx, bytes_recompose _ hy, bytes_recompose _ hz,
    bytes_recompose _ gx, bytes_recompose _ gy, bytes_recompose _ gz,
    bytes_recompose _ (intBits_lt _), intOfBits_intBits _ hs1 hs2,
    bytes_recompose _ h4, bytes_recompose _ h5, bytes_recompose _ h6, bytes_recompose _ h7,
    bytes_recompose _ h8, bytes_recompose _ h9, bytes_recompose _ h10, bytes_recompose _ h11,
    bytes_recompose _ h12, bytes_recompose _ h13, bytes_recompose _ h14,
    bytes_recompose _ h15, bytes_recompose _ h16, bytes_recompose _ h17,
    bytes_recompose _ h18]

/-- Values that agree except on `time` differ only by their `time`. -/
theorem Control.eq_of_agreeExceptTime {a b : Control} (h : a.AgreeExceptTime b) :
    b = { a with time := b.time } := by
  obtain ⟨h1, h2, h3, h4, h5, h6, h7, h8, h9, h10, h11, h12, h13, h14, h15, h16, h17⟩ := h
  cases a
  cases b
  simp only at h1 h2 h3 h4 h5 h6 h7 h8 h9 h10 h11 h12 h13 h14 h15 h16 h17
  simp only [Control.mk.injEq]
  simp [*]


/-! ## The declaration (C1) -/

/-- C1: `struct Control` declares exactly 18 members, in the order camera,
focus, size, minimumStepDistance, zoom, time, p1 .. p9, pA, pB, pC; camera and
focus are 3-component float vectors, size is an `int`, the other fifteen are
`float`; under the target rules `int` and `float` are 32 bits wide. -/
theorem Control_members_exact :
    Control.members.length = 18 ∧
    Control.members.map Member.name =
      ["camera", "focus", "size", "minimumStepDistance", "zoom", "time",
       "p1", "p2", "p3", "p4", "p5", "p6", "p7", "p8", "p9", "pA", "pB", "pC"] ∧
    Control.members.map Member.ty =
      [Ty.vector_float3, Ty.vector_float3, Ty.int, Ty.float, Ty.float, Ty.float,
       Ty.float, Ty.float, Ty.float, Ty.float, Ty.float, Ty.float,
       Ty.float, Ty.float, Ty.float, Ty.float, Ty.float, Ty.float] ∧
    Control.members.countP (fun m => m.ty = Ty.vector_float3) = 2 ∧
    Control.members.countP (fun m => m.ty = Ty.int) = 1 ∧
    Control.members.countP (fun m => m.ty = Ty.float) = 15 ∧
    (Control.members.map Member.name).Nodup ∧
    8 * simdTarget.sizeOf Ty.int = 32 ∧ 8 * simdTarget.sizeOf Ty.float = 32 := by
  refine ⟨rfl, rfl, rfl, by decide, by decide, by decide, by decide, rfl, rfl⟩

/-! ## The total size (C2, C3) -/

/-- C2, as stated: under the rules where a 3-vector is padded to 16 bytes and
every scalar is 4 bytes, `sizeof(Control)` is claimed to be 80 bytes.  The
rules hold for `simdTarget` and the size is not 80 there. -/
theorem sizeof_Control_ne_80 :
    simdTarget.PadsVec3 ∧ sizeofStruct simdTarget Control.members ≠ 80 :=
  ⟨simdTarget_padsVec3, by rw [sizeofStruct_Control]; decide⟩

/-- C2, amended: under the rules where a 3-vector is padded to 16 bytes
(16-byte aligned) and every scalar is 4 bytes, `sizeof(Control)` for the
declared member list equals 96 bytes. -/
theorem sizeof_Control_eq_96 (T : Target) (h : T.PadsVec3) :
    sizeofStruct T Control.members = 96 := by
  obtain rfl := Target.eq_simdTarget h
  exact sizeofStruct_Control

/-- The rules of `simdTarget` give `sizeof(Control) = 96`. -/
theorem sizeof_Control_eq_96_witness :
    simdTarget.PadsVec3 ∧ sizeofStruct simdTarget Control.members = 96 :=
  ⟨simdTarget_padsVec3, sizeof_Control_eq_96 simdTarget simdTarget_padsVec3⟩

/-- C3, as stated: the unrounded sum of the member widths, 2×16 + 4 + 4×15, is
claimed to be 92 bytes.  Under the stated rules the sum is not 92, and neither
is the arithmetic expression. -/
theorem widthSum_Control_ne_92 :
    simdTarget.PadsVec3 ∧ widthSum simdTarget Control.members ≠ 92 ∧
      2 * 16 + 4 + 4 * 15 ≠ 92 :=
  ⟨simdTarget_padsVec3, by decide, by decide⟩

/-- C3, amended: with 16-byte vectors and 4-byte scalars the unrounded sum of
the member widths of `Control` (two vectors, one int, fifteen floats:
2×16 + 4 + 4×15) equals 96 bytes; it is the end of the last member, and it is
the value that is rounded up to the alignment of the structure (16) to obtain
the total size, which is 96 as well. -/
theorem widthSum_Control_eq_96 (T : Target) (h : T.PadsVec3) :
    widthSum T Control.members =
        2 * T.sizeOf Ty.vector_float3 + T.sizeOf Ty.int + T.sizeOf Ty.float * 15 ∧
    widthSum T Control.members = 2 * 16 + 4 + 4 * 15 ∧
    widthSum T Control.members = 96 ∧
    endFrom T 0 Control.members = widthSum T Control.members ∧
    structAlign T Control.members = 16 ∧
    sizeofStruct T Control.members =
      alignUp (widthSum T Control.members) (structAlign T Control.members) ∧
    alignUp (widthSum T Control.members) (structAlign T Control.members) = 96 := by
  obtain rfl := Target.eq_simdTarget h
  refine ⟨?_, ?_, ?_, ?_, ?_, ?_, ?_⟩ <;> decide

/-- The rules of `simdTarget` give the unrounded sum 96. -/
theorem widthSum_Control_eq_96_witness :
    simdTarget.PadsVec3 ∧ widthSum simdTarget Control.members = 96 :=
  ⟨simdTarget_padsVec3, (widthSum_Control_eq_96 simdTarget simdTarget_padsVec3).2.2.1⟩

/-! ## Offsets (C4) -/

/-- C4: under the stated rules the members of `Control` sit, in declaration
order, at the offsets of sequential layout: the first at 0, every later one at
the smallest multiple of its own alignment (16 for the vectors, 4 for the
scalars) that is not below the end of the preceding member; the offsets are
0, 16, 32, 36, 40, 44, 48, then 4 bytes further for each parameter up to 92 for
`pC`, and they are strictly increasing. -/
theorem Control_offsets_sequential (T : Target) (h : T.PadsVec3) :
    (layout T Control.members).map Slot.name = Control.members.map Member.name ∧
    (layout T Control.members).map Slot.ty = Control.members.map Member.ty ∧
    offsets T Control.members =
      [0, 16, 32, 36, 40, 44, 48, 52, 56, 60, 64, 68, 72, 76, 80, 84, 88, 92] ∧
    (offsets T Control.members).head? = some 0 ∧
    (∀ s ∈ layout T Control.members,
      T.alignOf s.ty = (if s.ty = Ty.vector_float3 then 16 else 4)) ∧
    (∀ i p q, (layout T Control.members)[i]? = some p →
      (layout T Control.members)[i + 1]? = some q →
      IsSeqOffset (T.alignOf q.ty) p.stop q.offset) ∧
    (offsets T Control.members).Pairwise (fun a b => a < b) ∧
    offsetOf T Control.members "camera" = some 0 ∧
    offsetOf T Control.members "focus" = some 16 ∧
    offsetOf T Control.members "size" = some 32 ∧
    offsetOf T Control.members "minimumStepDistance" = some 36 ∧
    offsetOf T Control.members "zoom" = some 40 ∧
    offsetOf T Control.members "time" = some 44 ∧
    offsetOf T Control.members "p1" = some 48 ∧
    offsetOf T Control.members "pC" = some 92 := by
  obtain rfl := Target.eq_simdTarget h
  refine ⟨by decide, by decide, by decide, by decide, by decide, ?_, by decide,
    by decide, by decide, by decide, by decide, by decide, by decide, by decide, by decide⟩
  intro i p q hp hq
  have hi : i + 1 < 18 := by
    have := (List.getElem?_eq_some.1 hq).1
    simpa [layout_Control] using this
  rw [layout_Control] at hp hq
  have hi17 : i < 17 := by omega
  interval_cases i <;>
    simp only [List.getElem?_cons_succ, List.getElem?_cons_zero, Option.some.injEq,
      Nat.reduceAdd] at hp hq <;>
    subst hp <;> subst hq <;>
    exact ⟨by decide, by decide, fun m _ hm => hm⟩

/-- The rules of `simdTarget` give the listed offsets. -/
theorem Control_offsets_sequential_witness :
    simdTarget.PadsVec3 ∧
      offsets simdTarget Control.members =
        [0, 16, 32, 36, 40, 44, 48, 52, 56, 60, 64, 68, 72, 76, 80, 84, 88, 92] :=
  ⟨simdTarget_padsVec3, (Control_offsets_sequential simdTarget simdTarget_padsVec3).2.2.1⟩

/-! ## Member widths (C5) -/

/-- C5: under the stated rules each of the two vector members (camera, focus)
starts at a 16-byte aligned offset and occupies 16 bytes, of which the first 12
carry its three components (4 little-endian bytes per lane) and the last 4
carry none and keep the content of the buffer; each of the sixteen scalar
members occupies exactly 4 bytes. -/
theorem Control_member_widths (T : Target) (h : T.PadsVec3) (c : Control)
    (fill : Nat → Nat) :
    ((layout T Control.members).filter (fun s => s.ty = Ty.vector_float3)).map Slot.name =
      ["camera", "focus"] ∧
    ((layout T Control.members).filter (fun s => s.ty ≠ Ty.vector_float3)).map Slot.name =
      ["size", "minimumStepDistance", "zoom", "time", "p1", "p2", "p3", "p4", "p5", "p6",
       "p7", "p8", "p9", "pA", "pB", "pC"] ∧
    (∀ s ∈ layout T Control.members, s.ty = Ty.vector_float3 →
      s.offset % 16 = 0 ∧ s.size = 16 ∧ T.usedOf s.ty = 12 ∧
      ∀ k, k < 16 → (carries T Control.members (s.offset + k) = true ↔ k < 12)) ∧
    (∀ s ∈ layout T Control.members, s.ty ≠ Ty.vector_float3 →
      s.size = 4 ∧ T.usedOf s.ty = 4 ∧
      ∀ k, k < 4 → carries T Control.members (s.offset + k) = true) ∧
    (∀ k, k < 12 → (image T c fill).getD (fieldAt T "camera" + k) 0 =
      byteOf ([c.camera.x, c.camera.y, c.camera.z].getD (k / 4) 0) (k % 4)) ∧
    (∀ k, 12 ≤ k → k < 16 → (image T c fill).getD (fieldAt T "camera" + k) 0 =
      fill (fieldAt T "camera" + k)) ∧
    (∀ k, k < 12 → (image T c fill).getD (fieldAt T "focus" + k) 0 =
      byteOf ([c.focus.x, c.focus.y, c.focus.z].getD (k / 4) 0) (k % 4)) ∧
    (∀ k, 12 ≤ k → k < 16 → (image T c fill).getD (fieldAt T "focus" + k) 0 =
      fill (fieldAt T "focus" + k)) := by
  obtain rfl := Target.eq_simdTarget h
  have hcam : fieldAt simdTarget "camera" = 0 := by decide
  have hfoc : fieldAt simdTarget "focus" = 16 := by decide
  rw [hcam, hfoc, image_simdTarget]
  refine ⟨by decide, by decide, by decide, by decide, ?_, ?_, ?_, ?_⟩
  · intro k hk
    interval_cases k <;> rfl
  · intro k hk1 hk2
    interval_cases k <;> rfl
  · intro k hk
    interval_cases k <;> rfl
  · intro k hk1 hk2
    interval_cases k <;> rfl

/-- Under the rules of `simdTarget` the last lane of `camera` holds the buffer
content, whatever the value. -/
theorem Control_member_widths_witness :
    simdTarget.PadsVec3 ∧
      (image simdTarget (Control.make ⟨1, 2, 3⟩ ⟨4, 5, 6⟩ (-7) 8 9 10 11 12 13 14 15 16 17 18
        19 20 21 22) (fun _ => 170)).getD (fieldAt simdTarget "camera" + 12) 0 = 170 :=
  ⟨simdTarget_padsVec3,
    (Control_member_widths simdTarget simdTarget_padsVec3 _ (fun _ => 170)).2.2.2.2.2.1 12
      (by decide) (by decide)⟩

/-! ## Round trip (C6) -/

/-- C6: for every assignment of values to the 18 members (32-bit patterns for
the floats, three per vector, a 32-bit signed integer for `size`), constructing
a `Control` from them and reading each member back yields the supplied value,
and decoding each member from its offset range in the memory image of the
constructed value yields the supplied values again, bit for bit. -/
theorem Control_roundtrip (T : Target) (h : T.PadsVec3) (camera focus : vector_float3)
    (size : Int) (minimumStepDistance zoom time p1 p2 p3 p4 p5 p6 p7 p8 p9 pA pB pC : Nat)
    (fill : Nat → Nat)
    (hv : (Control.make camera focus size minimumStepDistance zoom time
      p1 p2 p3 p4 p5 p6 p7 p8 p9 pA pB pC).Valid) :
    let c := Control.make camera focus size minimumStepDistance zoom time
      p1 p2 p3 p4 p5 p6 p7 p8 p9 pA pB pC
    (c.camera = camera ∧ c.focus = focus ∧ c.size = size ∧
      c.minimumStepDistance = minimumStepDistance ∧ c.zoom = zoom ∧ c.time = time ∧
      c.p1 = p1 ∧ c.p2 = p2 ∧ c.p3 = p3 ∧ c.p4 = p4 ∧ c.p5 = p5 ∧ c.p6 = p6 ∧
      c.p7 = p7 ∧ c.p8 = p8 ∧ c.p9 = p9 ∧ c.pA = pA ∧ c.pB = pB ∧ c.pC = pC) ∧
    decode T (image T c fill) = c ∧
    (decode T (image T c fill)).camera = camera ∧
    (decode T (image T c fill)).focus = focus ∧
    (decode T (image T c fill)).size = size ∧
    (decode T (image T c fill)).minimumStepDistance = minimumStepDistance ∧
    (decode T (image T c fill)).zoom = zoom ∧
    (decode T (image T c fill)).time = time ∧
    (decode T (image T c fill)).p1 = p1 ∧ (decode T (image T c fill)).p2 = p2 ∧
    (decode T (image T c fill)).p3 = p3 ∧ (decode T (image T c fill)).p4 = p4 ∧
    (decode T (image T c fill)).p5 = p5 ∧ (decode T (image T c fill)).p6 = p6 ∧
    (decode T (image T c fill)).p7 = p7 ∧ (decode T (image T c fill)).p8 = p8 ∧
    (decode T (image T c fill)).p9 = p9 ∧ (decode T (image T c fill)).pA = pA ∧
    (decode T (image T c fill)).pB = pB ∧ (decode T (image T c fill)).pC = pC := by
  obtain rfl := Target.eq_simdTarget h
  intro c
  have hd : decode simdTarget (image simdTarget c fill) = c :=
    decode_image_simdTarget c fill hv
  rw [hd]
  exact ⟨⟨rfl, rfl, rfl, rfl, rfl, rfl, rfl, rfl, rfl, rfl, rfl, rfl, rfl, rfl, rfl, rfl,
    rfl, rfl⟩, rfl, rfl, rfl, rfl, rfl, rfl, rfl, rfl, rfl, rfl, rfl, rfl, rfl, rfl, rfl, rfl,
    rfl, rfl, rfl⟩

/-- The round trip at the patterns of `0.0` (0), negative zero (2147483648), a
quiet NaN (2143289344), a signalling NaN (2139095041) and a negative `size`. -/
theorem Control_roundtrip_witness :
    (Control.make ⟨0, 2147483648, 2143289344⟩ ⟨2139095041, 4294967295, 1065353216⟩
      (-2147483648) 0 2147483648 2143289344 1 2 3 4 5 6 7 8 9 10 11 4294967295).Valid ∧
    decode simdTarget (image simdTarget
      (Control.make ⟨0, 2147483648, 2143289344⟩ ⟨2139095041, 4294967295, 1065353216⟩
        (-2147483648) 0 2147483648 2143289344 1 2 3 4 5 6 7 8 9 10 11 4294967295)
      (fun _ => 255)) =
      Control.make ⟨0, 2147483648, 2143289344⟩ ⟨2139095041, 4294967295, 1065353216⟩
        (-2147483648) 0 2147483648 2143289344 1 2 3 4 5 6 7 8 9 10 11 4294967295 :=
  ⟨by decide,
    (Control_roundtrip simdTarget simdTarget_padsVec3 _ _ _ _ _ _ _ _ _ _ _ _ _ _ _ _ _ _
      (fun _ => 255) (by decide)).2.1⟩

/-! ## Frame of `time` (C7) -/

/-- C7, as stated: two `Control` values that agree on all members except `time`
are claimed to have memory images equal at every byte outside the offset range
of `time`.  Two valid values that differ only in `time`, held in objects whose
unused vector lanes have different content, differ at byte 12, which lies
inside the structure and outside the range of `time`. -/
theorem time_frame_fails_on_unused_lane :
    simdTarget.PadsVec3 ∧
    (Control.make ⟨1, 2, 3⟩ ⟨4, 5, 6⟩ 640 8 9 1065353216 11 12 13 14 15 16 17 18 19 20 21
      22).Valid ∧
    (Control.make ⟨1, 2, 3⟩ ⟨4, 5, 6⟩ 640 8 9 1073741824 11 12 13 14 15 16 17 18 19 20 21
      22).Valid ∧
    (Control.make ⟨1, 2, 3⟩ ⟨4, 5, 6⟩ 640 8 9 1065353216 11 12 13 14 15 16 17 18 19 20 21
      22).AgreeExceptTime
      (Control.make ⟨1, 2, 3⟩ ⟨4, 5, 6⟩ 640 8 9 1073741824 11 12 13 14 15 16 17 18 19 20 21
        22) ∧
    12 < sizeofStruct simdTarget Control.members ∧
    ¬ (fieldAt simdTarget "time" ≤ 12 ∧
      12 < fieldAt simdTarget "time" + simdTarget.sizeOf Ty.float) ∧
    (image simdTarget (Control.make ⟨1, 2, 3⟩ ⟨4, 5, 6⟩ 640 8 9 1065353216 11 12 13 14 15 16
      17 18 19 20 21 22) (fun _ => 0)).getD 12 0 ≠
    (image simdTarget (Control.make ⟨1, 2, 3⟩ ⟨4, 5, 6⟩ 640 8 9 1073741824 11 12 13 14 15 16
      17 18 19 20 21 22) (fun _ => 255)).getD 12 0 := by
  refine ⟨simdTarget_padsVec3, by decide, by decide, by decide, by decide, by decide, ?_⟩
  rw [image_simdTarget, image_simdTarget]
  decide

/-- C7, amended: for every two valid `Control` values that agree on all members
except `time`, held in objects with any content `fa`, `fb` of the bytes that
carry no component, the memory images are equal at every byte outside the
4-byte offset range of `time` (bytes 44 to 47) that carries a member component;
a byte that carries no component lies outside that range and shows the content
of its own object, so the images agree there exactly when the two objects do;
and the images differ somewhere inside the range of `time` exactly when the two
`time` patterns differ. -/
theorem Control_time_frame (T : Target) (h : T.PadsVec3) (a b : Control)
    (fa fb : Nat → Nat) (ha : a.Valid) (hb : b.Valid) (hab : a.AgreeExceptTime b) :
    offsetOf T Control.members "time" = some (fieldAt T "time") ∧
    fieldAt T "time" = 44 ∧ T.sizeOf Ty.float = 4 ∧
    (∀ i, i < sizeofStruct T Control.members →
      ¬ (fieldAt T "time" ≤ i ∧ i < fieldAt T "time" + T.sizeOf Ty.float) →
      carries T Control.members i = true →
      (image T a fa).getD i 0 = (image T b fb).getD i 0) ∧
    (∀ i, i < sizeofStruct T Control.members → carries T Control.members i = false →
      ¬ (fieldAt T "time" ≤ i ∧ i < fieldAt T "time" + T.sizeOf Ty.float) ∧
      (image T a fa).getD i 0 = fa i ∧ (image T b fb).getD i 0 = fb i) ∧
    (∀ i, i < sizeofStruct T Control.members →
      ¬ (fieldAt T "time" ≤ i ∧ i < fieldAt T "time" + T.sizeOf Ty.float) →
      fa i = fb i → (image T a fa).getD i 0 = (image T b fb).getD i 0) ∧
    ((∃ i, fieldAt T "time" ≤ i ∧ i < fieldAt T "time" + T.sizeOf Ty.float ∧
        (image T a fa).getD i 0 ≠ (image T b fb).getD i 0) ↔ a.time ≠ b.time) := by
  obtain rfl := Target.eq_simdTarget h
  have ht : fieldAt simdTarget "time" = 44 := by decide
  have hf : simdTarget.sizeOf Ty.float = 4 := rfl
  have hbeq := Control.eq_of_agreeExceptTime hab
  have hat : a.time < 4294967296 := ha.2.2.2.2.2.1
  have hbt : b.time < 4294967296 := hb.2.2.2.2.2.1
  rw [ht, hf, sizeofStruct_Control]
  refine ⟨by decide, rfl, rfl, ?_, ?_, ?_, ?_⟩
  · intro i hi hout hc
    rw [hbeq, image_simdTarget, image_simdTarget]
    have hcases : i < 44 ∨ 48 ≤ i := by omega
    rcases hcases with hlt | hge
    · interval_cases i <;> first | rfl | exact absurd hc (by decide)
    · interval_cases i <;> rfl
  · intro i hi hc
    rw [image_simdTarget, image_simdTarget]
    interval_cases i <;> first | exact absurd hc (by decide) | exact ⟨by decide, rfl, rfl⟩
  · intro i hi hout hfill
    rw [hbeq, image_simdTarget, image_simdTarget]
    have hcases : i < 44 ∨ 48 ≤ i := by omega
    rcases hcases with hlt | hge
    · interval_cases i <;> first | rfl | exact hfill
    · interval_cases i <;> rfl
  · constructor
    · rintro ⟨i, h1, h2, hne⟩ heq
      apply hne
      have hba : b = a := by
        rw [hbeq, ← heq]
      rw [hba, image_simdTarget, image_simdTarget]
      interval_cases i <;> rfl
    · intro hne
      by_contra hall
      apply hne
      have hsame : ∀ i, 44 ≤ i → i < 44 + 4 →
          (image simdTarget a fa).getD i 0 = (image simdTarget b fb).getD i 0 := by
        intro i h1 h2
        by_contra hd
        exact hall ⟨i, h1, h2, hd⟩
      have h0 := hsame 44 (by decide) (by decide)
      have h1 := hsame 45 (by decide) (by decide)
      have h2 := hsame 46 (by decide) (by decide)
      have h3 := hsame 47 (by decide) (by decide)
      rw [image_simdTarget, image_simdTarget] at h0 h1 h2 h3
      exact bytes_inj a.time b.time hat hbt h0 h1 h2 h3

/-- Two values that differ only in `time` (patterns of 1.0 and 2.0), in objects
with different unused-lane content: byte 36, the first byte of
`minimumStepDistance`, is the same in both images. -/
theorem Control_time_frame_witness :
    simdTarget.PadsVec3 ∧
    (Control.make ⟨1, 2, 3⟩ ⟨4, 5, 6⟩ 640 8 9 1065353216 11 12 13 14 15 16 17 18 19 20 21
      22).Valid ∧
    (Control.make ⟨1, 2, 3⟩ ⟨4, 5, 6⟩ 640 8 9 1073741824 11 12 13 14 15 16 17 18 19 20 21
      22).Valid ∧
    (Control.make ⟨1, 2, 3⟩ ⟨4, 5, 6⟩ 640 8 9 1065353216 11 12 13 14 15 16 17 18 19 20 21
      22).AgreeExceptTime
      (Control.make ⟨1, 2, 3⟩ ⟨4, 5, 6⟩ 640 8 9 1073741824 11 12 13 14 15 16 17 18 19 20 21
        22) ∧
    (image simdTarget (Control.make ⟨1, 2, 3⟩ ⟨4, 5, 6⟩ 640 8 9 1065353216 11 12 13 14 15 16
      17 18 19 20 21 22) (fun _ => 0)).getD 36 0 =
    (image simdTarget (Control.make ⟨1, 2, 3⟩ ⟨4, 5, 6⟩ 640 8 9 1073741824 11 12 13 14 15 16
      17 18 19 20 21 22) (fun _ => 255)).getD 36 0 :=
  ⟨simdTarget_padsVec3, by decide, by decide, by decide,
    (Control_time_frame simdTarget simdTarget_padsVec3 _ _ (fun _ => 0) (fun _ => 255)
      (by decide) (by decide) (by decide)).2.2.2.1 36 (by decide) (by decide) (by decide)⟩

/-! ## Value copy (C8) -/

/-- C9: under the stated rules the byte ranges of the 18 members of `Control`
are pairwise disjoint, lie inside `[0, sizeof(Control))` and cover every byte
of the structure; there is no padding between members and none after the last,
the only bytes that carry no component are the 8 bytes 12..15 and 28..31 (the
unused fourth lanes of camera and focus), and `sizeof(Control)` is a multiple
of the 16-byte alignment of the structure. -/
theorem Control_ranges_tile (T : Target) (h : T.PadsVec3) :
    (layout T Control.members).length = 18 ∧
    (layout T Control.members).Pairwise (fun a b => a.stop ≤ b.offset) ∧
    (∀ a ∈ layout T Control.members, ∀ b ∈ layout T Control.members, a ≠ b →
      a.stop ≤ b.offset ∨ b.stop ≤ a.offset) ∧
    (∀ s ∈ layout T Control.members,
      s.offset < s.stop ∧ s.stop ≤ sizeofStruct T Control.members) ∧
    (∀ i, i < sizeofStruct T Control.members →
      ∃ s ∈ layout T Control.members, s.offset ≤ i ∧ i < s.stop) ∧
    (∀ i p q, (layout T Control.members)[i]? = some p →
      (layout T Control.members)[i + 1]? = some q → q.offset = p.stop) ∧
    endFrom T 0 Control.members = sizeofStruct T Control.members ∧
    (List.range (sizeofStruct T Control.members)).filter
      (fun i => !carries T Control.members i) = [12, 13, 14, 15, 28, 29, 30, 31] ∧
    ((List.range (sizeofStruct T Control.members)).filter
      (fun i => !carries T Control.members i)).length = 8 ∧
    (∀ (c : Control) (fill : Nat → Nat) (i : Nat), i < sizeofStruct T Control.members →
      carries T Control.members i = false → (image T c fill).getD i 0 = fill i) ∧
    structAlign T Control.members = 16 ∧
    sizeofStruct T Control.members % structAlign T Control.members = 0 := by
  obtain rfl := Target.eq_simdTarget h
  refine ⟨by decide, by decide, by decide, by decide, by decide, ?_, by decide, by decide,
    by decide, ?_, by decide, by decide⟩
  · intro i p q hp hq
    have hi : i + 1 < 18 := by
      have := (List.getElem?_eq_some.1 hq).1
      simpa [layout_Control] using this
    rw [layout_Control] at hp hq
    have hi17 : i < 17 := by omega
    interval_cases i <;>
      simp only [List.getElem?_cons_succ, List.getElem?_cons_zero, Option.some.injEq,
        Nat.reduceAdd] at hp hq <;>
      subst hp <;> subst hq <;> rfl
  · intro c fill i hi hc
    rw [sizeofStruct_Control] at hi
    rw [image_simdTarget]
    interval_cases i <;> first | rfl | (exact absurd hc (by decide))

/-- The rules of `simdTarget` give a structure of 96 bytes whose last member
ends at byte 96. -/
theorem Control_ranges_tile_witness :
    simdTarget.PadsVec3 ∧
      endFrom simdTarget 0 Control.members = sizeofStruct simdTarget Control.members :=
  ⟨simdTarget_padsVec3, (Control_ranges_tile simdTarget simdTarget_padsVec3).2.2.2.2.2.2.1⟩

end Apollonian
